import Mathlib

/-!
Verification of the action-eslint workflow (src/src/main.ts) against its
natural-language specification.  The TypeScript program is shallowly embedded:
JavaScript strings become String, numbers become Nat, optional values become
Option, thrown exceptions become Except, and the outcomes of the remote
octokit calls are given up front in a World record so that the control flow of
the run function can be replayed as a pure Lean function.
-/

namespace ActionEslint

/-- Models String.prototype.split with a one-character separator, on the
character list of the string.  JS semantics: splitting the empty string yields
a single empty piece. -/
def splitChar (c : Char) : List Char → List (List Char)
  | [] => [[]]
  | x :: t =>
    let r := splitChar c t
    if x = c then [] :: r
    else
      match r with
      | [] => [[x]]
      | h :: t2 => (x :: h) :: t2

/-- Models customGlob.split of the source, splitting a string on commas. -/
def jsSplitComma (s : String) : List String :=
  (splitChar ',' s.toList).map String.mk

/-- Returns the suffix of the character list starting at the last dot, when a
dot occurs in it. -/
def afterLastDot : List Char → Option (List Char)
  | [] => none
  | c :: rest =>
    match afterLastDot rest with
    | some s => some s
    | none => if c = '.' then some (c :: rest) else none

/-- Models path.extname of node: the extension of the last path component,
from its last dot, where a dot in first position of the component does not
start an extension. -/
def extname (p : String) : String :=
  let base := (splitChar '/' p.toList).getLastD []
  match base with
  | [] => ""
  | _ :: rest =>
    match afterLastDot rest with
    | some s => String.mk s
    | none => ""

/-- Models String.prototype.includes: substring containment test. -/
def listHasInfix (sub : List Char) : List Char → Bool
  | [] => sub.isEmpty
  | c :: t => sub.isPrefixOf (c :: t) || listHasInfix sub t

/-- Models p.includes(sub) of JavaScript. -/
def strIncludes (s sub : String) : Bool :=
  listHasInfix sub.toList s.toList

/-- Models suffix testing, used only to state the spec reading of the
declaration-file exclusion (the claims say: path ends in ".d.ts"). -/
def strEndsWith (s t : String) : Bool :=
  t.toList.isSuffixOf s.toList

/-- ACTION_NAME constant of the source. -/
def ACTION_NAME : String := "ESLint"

/-- EXTENSIONS constant of the source. -/
def EXTENSIONS : List String := [".ts", ".js", ".tsx", ".jsx"]

/-- One eslint message, fields as destructured in the source: line, endLine,
column, endColumn, severity, ruleId, message.  Optional fields are Option. -/
structure LintMessage where
  line : Nat
  endLine : Option Nat
  column : Nat
  endColumn : Option Nat
  severity : Nat
  ruleId : Option String
  message : String
  deriving DecidableEq

/-- One per-file result of the eslint report: filePath and its messages. -/
structure LintResult where
  filePath : String
  messages : List LintMessage
  deriving DecidableEq

/-- The eslint report destructured in the source: results, errorCount,
warningCount. -/
structure LintReport where
  results : List LintResult
  errorCount : Nat
  warningCount : Nat
  deriving DecidableEq

/-- One check-run annotation record as pushed by the source. -/
structure Annot where
  path : String
  start_line : Nat
  end_line : Nat
  start_column : Nat
  end_column : Nat
  annotation_level : Option String
  title : String
  message : String
  deriving DecidableEq

/-- The levels array of the source. -/
def levels : List String := ["notice", "warning", "failure"]

/-- Models the JS expression x || d for an optional number x: JS treats an
absent value and the number 0 as falsy. -/
def jsOrNat : Option Nat → Nat → Nat
  | some v, d => if v = 0 then d else v
  | none, d => d

/-- Models the JS expression x || d for an optional string x: JS treats an
absent value and the empty string as falsy. -/
def jsOrStr : Option String → String → String
  | some s, d => if s = "" then d else s
  | none, d => d

/-- Models the template-literal tail of the message field: the eslint rule
documentation link is appended exactly when ruleId is truthy. -/
def ruleUrl : Option String → String
  | some r => if r = "" then "" else "\nhttps://eslint.org/docs/rules/" ++ r
  | none => ""

/-- Builds the annotation pushed for one message, from lines 35-49 of the
source: the path is the filePath with the workspace prefix and separator
stripped, end positions fall back to start positions via JS truthiness, the
level is levels[severity], the title is ruleId falling back to ACTION_NAME,
and the message carries the rule link when a ruleId is present. -/
def mkAnnot (ws fp : String) (m : LintMessage) : Annot :=
  { path := String.mk (fp.toList.drop (ws.length + 1))
    start_line := m.line
    end_line := jsOrNat m.endLine m.line
    start_column := m.column
    end_column := jsOrNat m.endColumn m.column
    annotation_level := levels[m.severity]?
    title := jsOrStr m.ruleId ACTION_NAME
    message := m.message ++ ruleUrl m.ruleId }

/-- The annotations accumulated over the report results, in report order. -/
def annotationsOf (ws : String) : List LintResult → List Annot
  | [] => []
  | res :: t => res.messages.map (mkAnnot ws res.filePath) ++ annotationsOf ws t

/-- The output payload returned by lint. -/
structure LintOutput where
  title : String
  summary : String
  annotations : List Annot
  deriving DecidableEq

/-- The value returned by lint: conclusion plus output. -/
structure ChecksResult where
  conclusion : String
  output : LintOutput
  deriving DecidableEq

/-- The report-to-result translation of the lint function, lines 56-63 of the
source: failure iff errorCount is positive, fixed summary text, and the
accumulated annotations. -/
def lintRun (report : LintReport) (ws : String) : ChecksResult :=
  { conclusion := if report.errorCount > 0 then "failure" else "success"
    output :=
      { title := ACTION_NAME
        summary := toString report.errorCount ++ " error(s), "
            ++ toString report.warningCount ++ " warning(s) found"
        annotations := annotationsOf ws report.results } }

/-- The file-target selection of the lint function, lines 17-26 of the
source.  Note the glob is consulted only together with lintAll in the first
branch. -/
def filesToLint (files : Option (List String)) (lintAll customGlob : String) : List String :=
  if customGlob != "" && lintAll != "" then jsSplitComma customGlob
  else if lintAll != "" then ["src"]
  else
    match files with
    | some fs => fs
    | none => ["src"]

/-- C1: the conclusion is failure exactly when errorCount is positive, warnings
alone give success, and the summary is the fixed error/warning count text; the
spec scenario with 0 errors and 2 warnings is included. -/
theorem c1_verdict_and_summary (report : LintReport) (ws : String) :
    ((lintRun report ws).conclusion = "failure" ↔ 0 < report.errorCount)
    ∧ (report.errorCount = 0 → (lintRun report ws).conclusion = "success")
    ∧ (lintRun report ws).output.summary =
        toString report.errorCount ++ " error(s), "
          ++ toString report.warningCount ++ " warning(s) found"
    ∧ (lintRun ⟨[], 0, 2⟩ ws).output.summary = "0 error(s), 2 warning(s) found" := by
  refine ⟨?_, ?_, rfl, rfl⟩
  · by_cases h : 0 < report.errorCount
    · simp [lintRun, h]
    · simp [lintRun, h]
  · intro h
    simp [lintRun, h]

/-- C2: severity mapping of the derived annotation and the fallback of the end
positions to the start positions.  Eslint reports 1-based line and column
numbers, so a present end position is never the number 0; the two hypotheses
record this well-formedness, under which the JS truthiness fallback of the
source coincides with an absence check. -/
theorem c2_severity_and_span (ws fp : String) (m : LintMessage)
    (hL : m.endLine ≠ some 0) (hC : m.endColumn ≠ some 0) :
    (m.severity = 2 → (mkAnnot ws fp m).annotation_level = some "failure")
    ∧ (m.severity = 1 → (mkAnnot ws fp m).annotation_level = some "warning")
    ∧ (m.severity = 0 → (mkAnnot ws fp m).annotation_level = some "notice")
    ∧ (mkAnnot ws fp m).end_line =
        (match m.endLine with | some e => e | none => m.line)
    ∧ (mkAnnot ws fp m).end_column =
        (match m.endColumn with | some e => e | none => m.column) := by
  refine ⟨?_, ?_, ?_, ?_, ?_⟩
  · intro h; simp [mkAnnot, h, levels]
  · intro h; simp [mkAnnot, h, levels]
  · intro h; simp [mkAnnot, h, levels]
  · cases hEq : m.endLine with
    | none => simp [mkAnnot, jsOrNat, hEq]
    | some e =>
      have he : e ≠ 0 := by
        intro h0
        exact hL (by rw [hEq, h0])
      simp [mkAnnot, jsOrNat, hEq, he]
  · cases hEq : m.endColumn with
    | none => simp [mkAnnot, jsOrNat, hEq]
    | some e =>
      have he : e ≠ 0 := by
        intro h0
        exact hC (by rw [hEq, h0])
      simp [mkAnnot, jsOrNat, hEq, he]

/-- Concrete message used to witness C2: severity 2, endLine present, endColumn
absent. -/
def c2msg : LintMessage :=
  { line := 3, endLine := some 4, column := 5, endColumn := none,
    severity := 2, ruleId := some "semi", message := "missing semicolon" }

/-- Witness for C2 at a concrete diagnostic. -/
theorem c2_severity_and_span_witness :
    (mkAnnot "ws" "ws/a.ts" c2msg).annotation_level = some "failure"
    ∧ (mkAnnot "ws" "ws/a.ts" c2msg).end_line = 4
    ∧ (mkAnnot "ws" "ws/a.ts" c2msg).end_column = 5 := by
  have h := c2_severity_and_span "ws" "ws/a.ts" c2msg (by decide) (by decide)
  exact ⟨h.1 rfl, h.2.2.2.1, h.2.2.2.2⟩

/-- C10: the annotation title is the ruleId when present and ACTION_NAME
otherwise, and the message gets the rule documentation link appended exactly
when a ruleId is present, so a raw message is never published unmodified when
a ruleId exists.  Eslint rule ids are nonempty names, which the hypothesis
records; under it the JS truthiness test of the source coincides with a
presence check. -/
theorem c10_title_and_message (ws fp : String) (m : LintMessage)
    (hr : m.ruleId ≠ some "") :
    (mkAnnot ws fp m).title =
      (match m.ruleId with | some r => r | none => ACTION_NAME)
    ∧ (mkAnnot ws fp m).message =
        m.message ++
          (match m.ruleId with
           | some r => "\nhttps://eslint.org/docs/rules/" ++ r
           | none => "")
    ∧ (∀ r, m.ruleId = some r → (mkAnnot ws fp m).message ≠ m.message) := by
  cases hEq : m.ruleId with
  | none =>
    refine ⟨by simp [mkAnnot, jsOrStr, hEq], by simp [mkAnnot, ruleUrl, hEq], ?_⟩
    intro r hr'
    simp at hr'
  | some r =>
    have hrne : r ≠ "" := by
      intro h0
      exact hr (by rw [hEq, h0])
    refine ⟨by simp [mkAnnot, jsOrStr, hEq, hrne], by simp [mkAnnot, ruleUrl, hEq, hrne], ?_⟩
    intro r' hr' hcontra
    have hcontra' : m.message ++ ruleUrl m.ruleId = m.message := hcontra
    have hlen := congrArg String.length hcontra'
    rw [String.length_append] at hlen
    have hurl : (ruleUrl m.ruleId).length = 31 + r.length := by
      rw [hEq]
      show (if r = "" then "" else "\nhttps://eslint.org/docs/rules/" ++ r).length
          = 31 + r.length
      rw [if_neg hrne, String.length_append]
      have h31 : ("\nhttps://eslint.org/docs/rules/" : String).length = 31 := rfl
      omega
    omega

/-- Witness for C10 at concrete diagnostics with and without a ruleId. -/
theorem c10_title_and_message_witness :
    (mkAnnot "ws" "ws/a.ts" c2msg).title = "semi"
    ∧ (mkAnnot "ws" "ws/a.ts" c2msg).message =
        "missing semicolon" ++ "\nhttps://eslint.org/docs/rules/" ++ "semi"
    ∧ (mkAnnot "ws" "ws/a.ts" c2msg).message ≠ "missing semicolon" := by
  have h := c10_title_and_message "ws" "ws/a.ts" c2msg (by decide)
  refine ⟨h.1, ?_, h.2.2 "semi" rfl⟩
  have h2 := h.2.1
  rw [h2]
  rfl

/-- C3 counterexample: with a nonempty custom glob, an empty lint-all input and
a diff-derived file list available, the source passes the diff list to the
engine, not the glob split on commas, because the glob is consulted only in
the branch guarded by both inputs. -/
theorem c3_counterexample :
    ("lib/a.ts" : String) ≠ ""
    ∧ filesToLint (some ["x.ts"]) "" "lib/a.ts" = ["x.ts"]
    ∧ filesToLint (some ["x.ts"]) "" "lib/a.ts" ≠ jsSplitComma "lib/a.ts" := by
  refine ⟨by decide, rfl, by decide⟩

/-- C3 amended: the glob wins, split on commas, exactly when lint-all is also
set; when lint-all is empty the glob is ignored and the diff-derived list is
used when available with the default root target otherwise; lint-all alone
selects the default root target. -/
theorem c3_amended (files : Option (List String)) (la cg : String) :
    (cg ≠ "" → la ≠ "" → filesToLint files la cg = jsSplitComma cg)
    ∧ (la = "" → filesToLint files la cg = files.getD ["src"])
    ∧ (la ≠ "" → cg = "" → filesToLint files la cg = ["src"]) := by
  refine ⟨?_, ?_, ?_⟩
  · intro hc hl
    simp [filesToLint, hc, hl]
  · intro hl
    cases files with
    | none => simp [filesToLint, hl]
    | some fs => simp [filesToLint, hl]
  · intro hl hc
    simp [filesToLint, hc, hl]

/-- Witness for the amended C3 with both inputs set and a diff list present:
the glob wins. -/
theorem c3_amended_witness :
    filesToLint (some ["a.ts"]) "true" "lib/a.ts,lib/b.ts" = ["lib/a.ts", "lib/b.ts"] := by
  have h := (c3_amended (some ["a.ts"]) "true" "lib/a.ts,lib/b.ts").1 (by decide) (by decide)
  rw [h]
  rfl

/-- One changed-file node of the pull-request query. -/
structure PRFile where
  path : String
  deriving DecidableEq

/-- The pull-request file filter of the source, line 102: extension in the
configured set and the path does not contain the substring ".d.ts". -/
def prPred (p : String) : Bool :=
  EXTENSIONS.contains (extname p) && !(strIncludes p ".d.ts")

/-- The pull-request selection of the source: filter the changed files and map
to their paths. -/
def prSelect (files : List PRFile) : List String :=
  (files.filter (fun f => prPred f.path)).map PRFile.path

/-- The filter as the claim words it: extension in the set and the path does
not END in the ".d.ts" suffix. -/
def specPRPred (p : String) : Bool :=
  EXTENSIONS.contains (extname p) && !(strEndsWith p ".d.ts")

/-- One file record of the push-trigger commit query. -/
structure CommitFile where
  filename : String
  status : String
  deriving DecidableEq

/-- The push-trigger file filter of the source, line 116: extension in the
set, the name does not contain ".d.ts", and the status is neither removed nor
changed. -/
def pushPred (f : CommitFile) : Bool :=
  EXTENSIONS.contains (extname f.filename) && !(strIncludes f.filename ".d.ts")
    && f.status != "removed" && f.status != "changed"

/-- The push-trigger selection of the source: filter then map to names. -/
def pushSelect (files : List CommitFile) : List String :=
  (files.filter pushPred).map CommitFile.filename

/-- The push filter as the claim words it, with the suffix reading of the
declaration-file exclusion. -/
def specPushPred (f : CommitFile) : Bool :=
  EXTENSIONS.contains (extname f.filename) && !(strEndsWith f.filename ".d.ts")
    && f.status != "removed" && f.status != "changed"

/-- Filtering on a projected field commutes with mapping that field out. -/
theorem filter_map_comm_pr (p : String → Bool) (l : List PRFile) :
    (l.filter (fun f => p f.path)).map PRFile.path = (l.map PRFile.path).filter p := by
  induction l with
  | nil => rfl
  | cons f t ih =>
    simp only [List.filter_cons, List.map_cons]
    cases h : p f.path with
    | false => simp only [h, Bool.false_eq_true, if_false, ih]
    | true => simp only [h, if_true, List.map_cons, ih]

/-- Same commutation for commit files and their names. -/
theorem filter_map_comm_push (p : String → Bool) (l : List CommitFile) :
    (l.filter (fun f => p f.filename)).map CommitFile.filename
      = (l.map CommitFile.filename).filter p := by
  induction l with
  | nil => rfl
  | cons f t ih =>
    simp only [List.filter_cons, List.map_cons]
    cases h : p f.filename with
    | false => simp only [h, Bool.false_eq_true, if_false, ih]
    | true => simp only [h, if_true, List.map_cons, ih]

/-- C4 counterexample: the path a.d.tsx has extension .tsx in the configured
set and does not end in ".d.ts", so the claim selects it, yet the source drops
it because its substring test finds ".d.ts" inside the name. -/
theorem c4_counterexample :
    prSelect [⟨"a.d.tsx"⟩] = []
    ∧ (([⟨"a.d.tsx"⟩] : List PRFile).map PRFile.path).filter specPRPred = ["a.d.tsx"]
    ∧ prSelect [⟨"a.d.tsx"⟩]
        ≠ (([⟨"a.d.tsx"⟩] : List PRFile).map PRFile.path).filter specPRPred := by
  refine ⟨by decide, by decide, by decide⟩

/-- C4 amended: the selected files are exactly those whose extension is in the
configured set and whose path does not CONTAIN the substring ".d.ts", in the
original reported order; the worked example of the claim holds as stated. -/
theorem c4_amended (files : List PRFile) :
    prSelect files
      = (files.map PRFile.path).filter
          (fun p => EXTENSIONS.contains (extname p) && !(strIncludes p ".d.ts"))
    ∧ prSelect [⟨"a.ts"⟩, ⟨"b.d.ts"⟩, ⟨"c.py"⟩, ⟨"d.tsx"⟩] = ["a.ts", "d.tsx"] := by
  refine ⟨?_, by decide⟩
  exact filter_map_comm_pr prPred files

/-- C5 counterexample: a modified file named a.d.tsx passes the suffix reading
of the declaration-file exclusion, so the claim selects it, yet the source
drops it through its substring test. -/
theorem c5_counterexample :
    pushSelect [⟨"a.d.tsx", "modified"⟩] = []
    ∧ (([⟨"a.d.tsx", "modified"⟩] : List CommitFile).filter specPushPred).map
        CommitFile.filename = ["a.d.tsx"]
    ∧ pushSelect [⟨"a.d.tsx", "modified"⟩]
        ≠ (([⟨"a.d.tsx", "modified"⟩] : List CommitFile).filter specPushPred).map
            CommitFile.filename := by
  refine ⟨by decide, by decide, by decide⟩

/-- C5 amended: the selected names are exactly those of the files whose status
is neither removed nor changed, whose extension is in the configured set and
whose name does not CONTAIN the substring ".d.ts", in order; the worked
example of the claim holds as stated. -/
theorem c5_amended (files : List CommitFile) :
    pushSelect files
      = (((files.filter (fun f => f.status != "removed" && f.status != "changed")).map
            CommitFile.filename).filter
          (fun p => EXTENSIONS.contains (extname p) && !(strIncludes p ".d.ts")))
    ∧ pushSelect [⟨"src/a.ts", "modified"⟩, ⟨"src/b.ts", "removed"⟩,
        ⟨"README.md", "modified"⟩] = ["src/a.ts"] := by
  refine ⟨?_, by decide⟩
  rw [← filter_map_comm_push (fun p => EXTENSIONS.contains (extname p) && !(strIncludes p ".d.ts"))]
  rw [List.filter_filter]
  simp only [pushSelect]
  congr 1
  apply List.filter_congr
  intro f _
  simp only [pushPred, Bool.and_assoc, Bool.and_comm]

/-- The pull-request query answer used by the source: changed-file nodes and
the oid of the last commit. -/
structure PRInfo where
  files : List PRFile
  latestOid : String

/-- One in-progress check run returned by the listForRef call. -/
structure CheckRunInfo where
  id : Nat
  name : String

/-- Sites at which the source logs its permission warning; recorded instead of
the literal log text. -/
inductive WarnSite
  | prQuery
  | commitQuery
  | checkLookup
  | checkCreate
  | checkUpdate
  deriving DecidableEq

/-- One checks.update call made by the source: the run id, the conclusion sent,
and the annotations attached when an output payload is sent. -/
structure UpdateCall where
  check_run_id : Nat
  conclusion : String
  annotations : Option (List Annot)
  deriving DecidableEq

/-- The ambient state of one invocation: the inputs read by the source and the
outcome of every remote call it can make, a throwing call being an error
value. -/
structure World where
  issueNumber : Option Nat
  prQuery : Except String PRInfo
  commitQuery : Except String (List CommitFile)
  jobName : String
  listForRef : Except String (List CheckRunInfo)
  createCheck : Except String Nat
  lintAll : String
  customGlob : String
  lintOutcome : Except String LintReport
  updateCheck : Except String Unit
  githubSha : String
  workspace : String

/-- Models the truthiness test on context.issue.number: present and nonzero. -/
def issueTruthy : Option Nat → Bool
  | some n => n != 0
  | none => false

/-- Models the JS truthiness test on the numeric check-run id. -/
def jsIdTruthy : Option Nat → Bool
  | some i => i != 0
  | none => false

/-- Result of the changed-file resolution phase. -/
structure SelOut where
  warns : List WarnSite
  sha : String
  files : Option (List String)

/-- Lines 72-120 of the source: resolve the reporting sha and the changed-file
list from the trigger context, falling back to the raw trigger sha with no
file list when the query throws. -/
def phase1 (w : World) : SelOut :=
  if issueTruthy w.issueNumber then
    match w.prQuery with
    | Except.ok info =>
        { warns := [], sha := info.latestOid, files := some (prSelect info.files) }
    | Except.error _ =>
        { warns := [WarnSite.prQuery], sha := w.githubSha, files := none }
  else
    match w.commitQuery with
    | Except.ok files =>
        { warns := [], sha := w.githubSha, files := some (pushSelect files) }
    | Except.error _ =>
        { warns := [WarnSite.commitQuery], sha := w.githubSha, files := none }

/-- Result of the check-run id acquisition phase. -/
structure AcqOut where
  warns : List WarnSite
  id : Option Nat

/-- Lines 124-136 of the source: when a job name is configured, look for an
in-progress check run with that name, matching case-insensitively; a throwing
call warns and yields no id. -/
def lookupId (w : World) : AcqOut :=
  if w.jobName != "" then
    match w.listForRef with
    | Except.ok runs =>
        { warns := [],
          id := (runs.find? (fun c => c.name.toLower == w.jobName.toLower)).map
              CheckRunInfo.id }
    | Except.error _ => { warns := [WarnSite.checkLookup], id := none }
  else { warns := [], id := none }

/-- Lines 137-149 of the source: when the lookup produced no truthy id, create
a check run; a throwing creation warns and leaves the id unset. -/
def acquireId (w : World) : AcqOut :=
  let l := lookupId w
  if jsIdTruthy l.id then l
  else
    match w.createCheck with
    | Except.ok i => { warns := l.warns, id := some i }
    | Except.error _ => { warns := l.warns ++ [WarnSite.checkCreate], id := l.id }

/-- Result of the lint-and-report phase. -/
structure StepOut where
  warns : List WarnSite
  targets : List String
  calls : List UpdateCall
  failed : Option String

/-- Lines 151-183 of the source: run lint over the resolved targets; on a
report, update the check run with conclusion and output when an id is held
(an update failure only warns) and mark the process failed with the summary
when the conclusion is failure; on a thrown exception, best-effort update the
check run to failure and mark the process failed with the exception message. -/
def lintStep (w : World) (files : Option (List String)) (id : Option Nat) : StepOut :=
  let targets := filesToLint files w.lintAll w.customGlob
  match w.lintOutcome with
  | Except.ok report =>
    let res := lintRun report w.workspace
    let wc :=
      match id with
      | some i =>
        if i != 0 then
          match w.updateCheck with
          | Except.ok _ =>
              (([] : List WarnSite),
               [UpdateCall.mk i res.conclusion (some res.output.annotations)])
          | Except.error _ =>
              ([WarnSite.checkUpdate],
               [UpdateCall.mk i res.conclusion (some res.output.annotations)])
        else (([] : List WarnSite), ([] : List UpdateCall))
      | none => (([] : List WarnSite), ([] : List UpdateCall))
    { warns := wc.1, targets := targets, calls := wc.2,
      failed := if res.conclusion = "failure" then some res.output.summary else none }
  | Except.error msg =>
    let wc :=
      match id with
      | some i =>
        if i != 0 then
          match w.updateCheck with
          | Except.ok _ =>
              (([] : List WarnSite), [UpdateCall.mk i "failure" none])
          | Except.error _ =>
              ([WarnSite.checkUpdate], [UpdateCall.mk i "failure" none])
        else (([] : List WarnSite), ([] : List UpdateCall))
      | none => (([] : List WarnSite), ([] : List UpdateCall))
    { warns := wc.1, targets := targets, calls := wc.2, failed := some msg }

/-- Observable outcome of one invocation of the run function. -/
structure RunOut where
  warnings : List WarnSite
  currentSha : String
  lintFiles : Option (List String)
  checkId : Option Nat
  lintTargets : List String
  updateCalls : List UpdateCall
  failed : Option String

/-- The run function of the source as a pure function of the World. -/
def runModel (w : World) : RunOut :=
  let p1 := phase1 w
  let p2 := acquireId w
  let p3 := lintStep w p1.files p2.id
  { warnings := p1.warns ++ p2.warns ++ p3.warns
    currentSha := p1.sha
    lintFiles := p1.files
    checkId := p2.id
    lintTargets := p3.targets
    updateCalls := p3.calls
    failed := p3.failed }

/-- The targets of the lint step do not depend on the lint outcome. -/
theorem lintStep_targets (w : World) (files : Option (List String)) (id : Option Nat) :
    (lintStep w files id).targets = filesToLint files w.lintAll w.customGlob := by
  cases h : w.lintOutcome <;> simp [lintStep, h]

/-- Selection fallback with no diff list: the glob split when both inputs are
set, the default root target otherwise. -/
theorem filesToLint_none (la cg : String) :
    filesToLint none la cg
      = if cg != "" && la != "" then jsSplitComma cg else ["src"] := by
  by_cases h : (cg != "" && la != "") = true
  · simp [filesToLint, h]
  · by_cases h2 : (la != "") = true
    · simp [filesToLint, h, h2]
    · simp [filesToLint, h, h2]

/-- Concrete world for the C6 counterexample: a pull-request trigger whose
changed-file query throws, with a custom glob supplied but lint-all unset. -/
def w6 : World :=
  { issueNumber := some 1
    prQuery := Except.error "denied"
    commitQuery := Except.ok []
    jobName := ""
    listForRef := Except.ok []
    createCheck := Except.ok 7
    lintAll := ""
    customGlob := "lib/a.ts"
    lintOutcome := Except.ok ⟨[], 0, 0⟩
    updateCheck := Except.ok ()
    githubSha := "sha0"
    workspace := "ws" }

/-- C6 counterexample: the pull-request query throws and a custom glob was
given, yet the engine receives the default root target, not the glob, because
the glob branch of the source also demands lint-all. -/
theorem c6_counterexample :
    w6.customGlob ≠ ""
    ∧ (runModel w6).lintTargets = ["src"]
    ∧ (runModel w6).lintTargets ≠ jsSplitComma w6.customGlob := by
  refine ⟨by decide, by decide, by decide⟩

/-- C6 amended: when the pull-request changed-file query throws, the run does
not abort: a warning is logged, no diff list is retained, the reporting sha is
the raw trigger sha, and the engine receives the glob split on commas when
both custom-glob and lint-all are set and the default root target otherwise. -/
theorem c6_amended (w : World) (n : Nat) (e : String)
    (hn : w.issueNumber = some n) (hn0 : n ≠ 0)
    (hq : w.prQuery = Except.error e) :
    WarnSite.prQuery ∈ (runModel w).warnings
    ∧ (runModel w).currentSha = w.githubSha
    ∧ (runModel w).lintFiles = none
    ∧ (runModel w).lintTargets =
        (if w.customGlob != "" && w.lintAll != "" then jsSplitComma w.customGlob
         else ["src"]) := by
  have ht : issueTruthy w.issueNumber = true := by
    rw [hn]
    simp [issueTruthy, hn0]
  have hp1 : phase1 w = { warns := [WarnSite.prQuery], sha := w.githubSha, files := none } := by
    simp [phase1, ht, hq]
  refine ⟨?_, ?_, ?_, ?_⟩
  · simp [runModel, hp1]
  · simp [runModel, hp1]
  · simp [runModel, hp1]
  · show (lintStep w (phase1 w).files (acquireId w).id).targets = _
    rw [hp1, lintStep_targets, filesToLint_none]

/-- Witness for the amended C6: query throws with both glob and lint-all set,
so the fallback is the glob list anchored to the raw sha. -/
theorem c6_amended_witness :
    WarnSite.prQuery ∈ (runModel { w6 with lintAll := "true" }).warnings
    ∧ (runModel { w6 with lintAll := "true" }).currentSha = "sha0"
    ∧ (runModel { w6 with lintAll := "true" }).lintTargets = ["lib/a.ts"] := by
  have h := c6_amended { w6 with lintAll := "true" } 1 "denied" rfl (by decide) rfl
  refine ⟨h.1, h.2.1, ?_⟩
  rw [h.2.2.2]
  rfl

/-- C7: when the lookup phase yields no run id and the creation call throws
(creation is attempted exactly when the lookup yields no id, so this covers
every invocation proceeding without an id), the run continues: a warning is
logged, no update call is ever made, and the process exit state is exactly the
one the lint conclusion dictates. -/
theorem c7_no_id (w : World) (e : String) (report : LintReport)
    (hl : (lookupId w).id = none) (hc : w.createCheck = Except.error e)
    (hr : w.lintOutcome = Except.ok report) :
    (runModel w).checkId = none
    ∧ WarnSite.checkCreate ∈ (runModel w).warnings
    ∧ (runModel w).updateCalls = []
    ∧ (runModel w).failed =
        (if (lintRun report w.workspace).conclusion = "failure"
         then some (lintRun report w.workspace).output.summary else none) := by
  have ha : acquireId w =
      { warns := (lookupId w).warns ++ [WarnSite.checkCreate], id := none } := by
    simp [acquireId, hl, jsIdTruthy, hc]
  refine ⟨?_, ?_, ?_, ?_⟩
  · simp [runModel, ha]
  · simp [runModel, ha]
  · simp [runModel, ha, lintStep, hr]
  · simp [runModel, ha, lintStep, hr]

/-- Concrete world for the C7 witness: no job name, creation throws, and the
lint report carries one error. -/
def w7 : World :=
  { issueNumber := none
    prQuery := Except.error "x"
    commitQuery := Except.ok []
    jobName := ""
    listForRef := Except.error "x"
    createCheck := Except.error "denied"
    lintAll := ""
    customGlob := ""
    lintOutcome := Except.ok ⟨[], 1, 0⟩
    updateCheck := Except.ok ()
    githubSha := "sha0"
    workspace := "ws" }

/-- Witness for C7: the run ends with no id, no update call, and a failed
process carrying the lint summary. -/
theorem c7_no_id_witness :
    (runModel w7).checkId = none
    ∧ (runModel w7).updateCalls = []
    ∧ (runModel w7).failed = some "1 error(s), 0 warning(s) found" := by
  have h := c7_no_id w7 "denied" ⟨[], 1, 0⟩ rfl rfl rfl
  refine ⟨h.1, h.2.2.1, ?_⟩
  rw [h.2.2.2]
  rfl

/-- C8: when the lint step throws, the process is marked failed with the
exception message; when a truthy run id is held, exactly one best-effort
update to conclusion failure is attempted, and this holds whatever the update
call itself does; with no id, no update is attempted. -/
theorem c8_lint_throws (w : World) (msg : String)
    (hm : w.lintOutcome = Except.error msg) :
    (runModel w).failed = some msg
    ∧ (∀ i, (runModel w).checkId = some i → i ≠ 0 →
        (runModel w).updateCalls = [UpdateCall.mk i "failure" none])
    ∧ ((runModel w).checkId = none → (runModel w).updateCalls = []) := by
  refine ⟨?_, ?_, ?_⟩
  · simp [runModel, lintStep, hm]
  · intro i hi h0
    have hi' : (acquireId w).id = some i := hi
    cases hu : w.updateCheck <;> simp [runModel, lintStep, hm, hi', h0, hu]
  · intro hi
    have hi' : (acquireId w).id = none := hi
    simp [runModel, lintStep, hm, hi']

/-- Concrete world for the C8 witness: a created run id, a throwing lint step,
and an update call that itself throws, exhibiting the swallowed best-effort
attempt. -/
def w8 : World :=
  { issueNumber := none
    prQuery := Except.error "x"
    commitQuery := Except.ok []
    jobName := ""
    listForRef := Except.ok []
    createCheck := Except.ok 7
    lintAll := ""
    customGlob := ""
    lintOutcome := Except.error "boom"
    updateCheck := Except.error "denied"
    githubSha := "sha0"
    workspace := "ws" }

/-- Witness for C8: the failure update is attempted on run 7 even though the
update itself throws, and the process fails with the exception message. -/
theorem c8_lint_throws_witness :
    (runModel w8).failed = some "boom"
    ∧ (runModel w8).updateCalls = [UpdateCall.mk 7 "failure" none] := by
  have h := c8_lint_throws w8 "boom" rfl
  exact ⟨h.1, h.2.1 7 rfl (by decide)⟩

/-- Total number of diagnostics carried by a report. -/
def diagCount (r : LintReport) : Nat :=
  (r.results.map (fun res => res.messages.length)).sum

/-- The annotations list is one annotation per diagnostic. -/
theorem annotationsOf_length (ws : String) (results : List LintResult) :
    (annotationsOf ws results).length
      = (results.map (fun res => res.messages.length)).sum := by
  induction results with
  | nil => rfl
  | cons res t ih => simp [annotationsOf, ih]

/-- Cap on annotations per check-run update call imposed by the hosting API,
as the claim states it. -/
def GITHUB_MAX_ANNOTATIONS_PER_CALL : Nat := 50

/-- Message and report used for the C9 counterexample: 51 error diagnostics. -/
def c9msg : LintMessage :=
  { line := 1, endLine := none, column := 1, endColumn := none,
    severity := 2, ruleId := none, message := "err" }

/-- Report with 51 diagnostics, one more than the per-call cap. -/
def c9report : LintReport :=
  { results := [⟨"ws/a.ts", List.replicate 51 c9msg⟩]
    errorCount := 51
    warningCount := 0 }

/-- Concrete world for C9: a created run id and a 51-diagnostic report. -/
def w9 : World :=
  { issueNumber := none
    prQuery := Except.error "x"
    commitQuery := Except.ok []
    jobName := ""
    listForRef := Except.ok []
    createCheck := Except.ok 5
    lintAll := ""
    customGlob := ""
    lintOutcome := Except.ok c9report
    updateCheck := Except.ok ()
    githubSha := "sha0"
    workspace := "ws" }

/-- C9 counterexample: with 51 diagnostics the source still makes a single
update call carrying all 51 annotations, exceeding the 50-annotation cap
instead of batching. -/
theorem c9_counterexample :
    (runModel w9).updateCalls.map (fun u => (u.annotations.getD []).length) = [51]
    ∧ GITHUB_MAX_ANNOTATIONS_PER_CALL < 51 := by
  constructor
  · have h1 : (runModel w9).updateCalls =
        [UpdateCall.mk 5 "failure" (some (annotationsOf "ws" c9report.results))] := rfl
    rw [h1]
    simp [annotationsOf_length, c9report]
  · decide

/-- C9 amended: whenever the lint step returns a report and a truthy run id is
held, exactly one update call is made and it carries the whole annotation
list, one annotation per diagnostic, with no batching whatever the count. -/
theorem c9_amended (w : World) (report : LintReport) (i : Nat)
    (hr : w.lintOutcome = Except.ok report)
    (hi : (runModel w).checkId = some i) (h0 : i ≠ 0) :
    (runModel w).updateCalls =
      [UpdateCall.mk i (lintRun report w.workspace).conclusion
        (some (lintRun report w.workspace).output.annotations)]
    ∧ (lintRun report w.workspace).output.annotations.length = diagCount report := by
  have hi' : (acquireId w).id = some i := hi
  constructor
  · cases hu : w.updateCheck <;> simp [runModel, lintStep, hr, hi', h0, hu]
  · simpa [lintRun, diagCount] using annotationsOf_length w.workspace report.results

/-- Witness for the amended C9 at the 51-diagnostic world. -/
theorem c9_amended_witness :
    (runModel w9).updateCalls.length = 1
    ∧ (lintRun c9report "ws").output.annotations.length = diagCount c9report := by
  have h := c9_amended w9 c9report 5 rfl rfl (by decide)
  refine ⟨?_, h.2⟩
  rw [h.1]
  rfl

end ActionEslint
